import Mathlib

/-!
Verification of the gapless playback engine of the lp-react repository.

The definitions below are a shallow embedding of
`src/src/services/AudioPlayerService.ts` (class `AudioPlayerService`) and of
the data model in `src/src/types/music.ts`.  The engine is single-threaded
and callback-driven; each public method and each internal handler is
embedded as a pure function from an engine state to a new engine state
together with the ordered list of externally visible effects it performs
(state publications to listeners, Source-Loader invocations, play attempts,
synchronous suspends, and `setTimeout`-scheduled asynchronous cleanups).
Timer interleavings are resolved canonically: every scheduled continuation
runs once, with its staleness guard (`this.currentAudio === newAudio`,
`isCurrentAudio()`) satisfied, which is the execution the claims describe
(no competing `stop`/`playAlbum` between the schedule and the callback).

Numeric audio clock values (`position`, `duration`, seconds) are modelled
as naturals; the claims only ever compare them with `0` or carry them
around unchanged.  The JavaScript distinction between `null` and
`undefined` inside a published state is collapsed into `Option.none`.

The listener registry and snapshot delivery (`addStateListener`,
`removeStateListener`, `notifyStateChange`) additionally get an
object-identity-aware model (`Broadcaster`) in which every
`PlaybackState` value lives in an explicit heap cell, so that aliasing
between the engine's held state object and the objects handed to
listeners is observable.
-/

namespace LP

/-- Track descriptor, from `src/src/types/music.ts`, `interface Track`. -/
structure Track where
  id : String
  title : String
  artist : String
  album : String
  trackNumber : Nat
  duration : Nat
  filePath : String
  relativePath : String
deriving DecidableEq

/-- Album, from `src/src/types/music.ts`, `interface Album`. -/
structure Album where
  id : String
  title : String
  artist : String
  year : Option Nat
  tracks : List Track
  coverArt : Option String
deriving DecidableEq

/-- The published snapshot, from `src/src/types/music.ts`,
`interface PlaybackState`. -/
structure PlaybackState where
  isPlaying : Bool
  currentTrack : Option Track
  currentAlbum : Option Album
  position : Nat
  duration : Nat
deriving DecidableEq

/-- The initial `playbackState` of a fresh `AudioPlayerService`, which is
also exactly the state `stop()` publishes
(`AudioPlayerService.ts` lines 10-16 and 371-377). -/
def clearedPlaybackState : PlaybackState :=
  ⟨false, none, none, 0, 0⟩

/-- A partial update, modelling the `Partial<PlaybackState>` argument of
`updatePlaybackState`.  A field is `none` when the key is absent from the
object literal at the call site.  For the two nullable fields the inner
`Option` is the published value. -/
structure StateUpdate where
  isPlaying : Option Bool
  currentTrack : Option (Option Track)
  currentAlbum : Option (Option Album)
  position : Option Nat
  duration : Option Nat
deriving DecidableEq

/-- Object-spread merge `{ ...this.playbackState, ...updates }`
(`AudioPlayerService.ts` line 49): a key present in `updates` overrides,
an absent key keeps the held value. -/
def applyUpdate (s : PlaybackState) (u : StateUpdate) : PlaybackState :=
  { isPlaying := u.isPlaying.getD s.isPlaying
    currentTrack := u.currentTrack.getD s.currentTrack
    currentAlbum := u.currentAlbum.getD s.currentAlbum
    position := u.position.getD s.position
    duration := u.duration.getD s.duration }

/-- Externally visible effects of an engine method, in program order.
`load i` is a Source-Loader invocation for track index `i`
(`new Audio()` plus `musicLibraryService.getAudioUrl` resolution);
`playAttempt i` is a `play()` call on the source holding track `i`;
`pauseActive` is a synchronous `pause()` on an existing element;
`asyncCleanup d` is a teardown block scheduled with `setTimeout(_, d)`. -/
inductive Event where
  | publish (st : PlaybackState)
  | load (trackIdx : Nat)
  | playAttempt (trackIdx : Nat)
  | pauseActive
  | asyncCleanup (delayMs : Nat)
deriving DecidableEq

/-- Outcome of an `audio.play()` attempt; the engine distinguishes
`AbortError` from other failures (`AudioPlayerService.ts` lines 152-157). -/
inductive PlayResult where
  | ok
  | err (isAbort : Bool)
deriving DecidableEq

/-- The mutable fields of `AudioPlayerService`
(`AudioPlayerService.ts` lines 4-17).  An `HTMLAudioElement` is
represented by the index of the track whose URL was assigned to it, the
only attribute the control flow of the service inspects. -/
structure Engine where
  currentAudioIdx : Option Nat
  nextAudioIdx : Option Nat
  currentTrackIndex : Nat
  currentAlbum : Option Album
  playbackState : PlaybackState
deriving DecidableEq

/-- A fresh service instance (`new AudioPlayerService()`). -/
def initialEngine : Engine :=
  ⟨none, none, 0, none, clearedPlaybackState⟩

/-- `updatePlaybackState` (`AudioPlayerService.ts` lines 48-51): merge the
partial update into the held state, then notify every listener with the
merged snapshot. -/
def updatePlaybackState (e : Engine) (u : StateUpdate) : Engine × List Event :=
  let merged := applyUpdate e.playbackState u
  ({ e with playbackState := merged }, [Event.publish merged])

/-- Number of tracks still ahead of the cursor; an upper bound on the
depth of the error-skip recursion of `playCurrentTrack`. -/
def playMeasure (e : Engine) : Nat :=
  match e.currentAlbum with
  | none => 0
  | some album => album.tracks.length - e.currentTrackIndex

/-- `playCurrentTrack` (`AudioPlayerService.ts` lines 67-172), with the
error-skip recursion (lines 160-166, the `setTimeout` retry whose
staleness guard passes in the canonical execution) made structural on a
fuel argument.  The wrapper `playCurrentTrack` supplies fuel equal to the
number of remaining tracks, which the recursion never exhausts: each
recursive call consumes one fuel unit and strictly advances the cursor,
and the fuel-0 fallback coincides with the function's own
cursor-out-of-range guard.

Program order of the effects, as in the source: pause the superseded
element (lines 79-86), create and point the new element (the Source-Loader
invocation, lines 89-92), publish the intended track with `isPlaying:
false` (lines 101-105), attempt `play()` (line 112), then either publish
`isPlaying: true` and schedule the old element's teardown (lines 114-131)
or run the error policy (lines 146-170). -/
def playCurrentTrackGo (env : Nat → PlayResult) (fuel : Nat) (e : Engine) :
    Engine × List Event :=
  match fuel with
  | 0 => (e, [])
  | Nat.succ fuel =>
    match e.currentAlbum with
    | none => (e, [])
    | some album =>
      if hlt : e.currentTrackIndex < album.tracks.length then
        let track := album.tracks.get ⟨e.currentTrackIndex, hlt⟩
        let pauseEvs : List Event :=
          match e.currentAudioIdx with
          | some _ => [Event.pauseActive]
          | none => []
        let e1 : Engine := { e with currentAudioIdx := some e.currentTrackIndex }
        let p1 := updatePlaybackState e1
          ⟨some false, some (some track), none, none, some track.duration⟩
        match env e.currentTrackIndex with
        | PlayResult.ok =>
          let p2 := updatePlaybackState p1.1 ⟨some true, none, none, none, none⟩
          let cleanupEvs : List Event :=
            match e.currentAudioIdx with
            | some _ => [Event.asyncCleanup 1000]
            | none => []
          (p2.1, pauseEvs ++ [Event.load e.currentTrackIndex] ++ p1.2
                 ++ [Event.playAttempt e.currentTrackIndex] ++ p2.2 ++ cleanupEvs)
        | PlayResult.err isAbort =>
          if e.currentTrackIndex < album.tracks.length - 1 then
            if isAbort then
              let p2 := updatePlaybackState p1.1 ⟨some false, none, none, none, none⟩
              (p2.1, pauseEvs ++ [Event.load e.currentTrackIndex] ++ p1.2
                     ++ [Event.playAttempt e.currentTrackIndex] ++ p2.2)
            else
              let e2 : Engine := { p1.1 with currentTrackIndex := p1.1.currentTrackIndex + 1 }
              let r := playCurrentTrackGo env fuel e2
              (r.1, pauseEvs ++ [Event.load e.currentTrackIndex] ++ p1.2
                    ++ [Event.playAttempt e.currentTrackIndex] ++ r.2)
          else
            let p2 := updatePlaybackState p1.1 ⟨some false, none, none, none, none⟩
            (p2.1, pauseEvs ++ [Event.load e.currentTrackIndex] ++ p1.2
                   ++ [Event.playAttempt e.currentTrackIndex] ++ p2.2)
      else (e, [])

/-- `playCurrentTrack` entry point; see `playCurrentTrackGo`. -/
def playCurrentTrack (env : Nat → PlayResult) (e : Engine) : Engine × List Event :=
  playCurrentTrackGo env (playMeasure e) e

/-- `preloadNextTrack` (`AudioPlayerService.ts` lines 246-272): a no-op
when no album is set or the cursor is on the last track; otherwise drop
any stale preloaded element and point a fresh element at the next track's
URL (a Source-Loader invocation for index `currentTrackIndex + 1`). -/
def preloadNextTrack (e : Engine) : Engine × List Event :=
  match e.currentAlbum with
  | none => (e, [])
  | some album =>
    if album.tracks.length - 1 ≤ e.currentTrackIndex then (e, [])
    else
      ({ e with nextAudioIdx := some (e.currentTrackIndex + 1) },
       [Event.load (e.currentTrackIndex + 1)])

/-- `handleTrackEnd` (`AudioPlayerService.ts` lines 274-348): advance the
cursor; if still in range, promote the preloaded element when one exists
(publish the next track, swap `nextAudio` into `currentAudio`, attempt
`play()`, then on success preload the following track, on failure fall
back to `playCurrentTrack`; the superseded element's teardown is scheduled
either way, lines 328-336), or fall back to `playCurrentTrack` when there
is no preloaded element; if out of range, publish
`{isPlaying: false, position: 0}` (lines 342-347). -/
def handleTrackEnd (env : Nat → PlayResult) (e : Engine) : Engine × List Event :=
  match e.currentAlbum with
  | none => (e, [])
  | some album =>
    let newIdx := e.currentTrackIndex + 1
    if hlt : newIdx < album.tracks.length then
      match e.nextAudioIdx with
      | some _ =>
        let nextTrack := album.tracks.get ⟨newIdx, hlt⟩
        let e1 : Engine := { e with currentTrackIndex := newIdx }
        let p1 := updatePlaybackState e1
          ⟨none, some (some nextTrack), none, none, some nextTrack.duration⟩
        let e2 : Engine := { p1.1 with currentAudioIdx := e.nextAudioIdx, nextAudioIdx := none }
        let cleanupEvs : List Event :=
          match e.currentAudioIdx with
          | some _ => [Event.asyncCleanup 100]
          | none => []
        match env newIdx with
        | PlayResult.ok =>
          let p2 := preloadNextTrack e2
          (p2.1, p1.2 ++ [Event.playAttempt newIdx] ++ cleanupEvs ++ p2.2)
        | PlayResult.err _ =>
          let p2 := playCurrentTrack env e2
          (p2.1, p1.2 ++ [Event.playAttempt newIdx] ++ cleanupEvs ++ p2.2)
      | none =>
        let e1 : Engine := { e with currentTrackIndex := newIdx }
        playCurrentTrack env e1
    else
      let e1 : Engine := { e with currentTrackIndex := newIdx }
      updatePlaybackState e1 ⟨some false, none, none, some 0, none⟩

/-- `playAlbum` (`AudioPlayerService.ts` lines 53-65): fail fast on an
empty track list, otherwise install the album and the start cursor,
publish the intended album and track, and start the current track.
`album.tracks[startTrackIndex]` out of range is JavaScript `undefined`,
collapsed here to `none`. -/
def playAlbum (env : Nat → PlayResult) (e : Engine) (album : Album)
    (startIdx : Nat) : Engine × List Event :=
  if album.tracks.length = 0 then (e, [])
  else
    let e1 : Engine := { e with currentAlbum := some album, currentTrackIndex := startIdx }
    let p1 := updatePlaybackState e1
      ⟨none, some (album.tracks.get? startIdx), some (some album), none, none⟩
    let p2 := playCurrentTrack env p1.1
    (p2.1, p1.2 ++ p2.2)

/-- `pause` (`AudioPlayerService.ts` lines 350-355): guarded only by the
existence of a current element; suspends it and publishes
`{isPlaying: false}`. -/
def pause (e : Engine) : Engine × List Event :=
  match e.currentAudioIdx with
  | some _ =>
    let p1 := updatePlaybackState e ⟨some false, none, none, none, none⟩
    (p1.1, Event.pauseActive :: p1.2)
  | none => (e, [])

/-- `stop` (`AudioPlayerService.ts` lines 367-431): publish the fully
cleared state first, drop the session fields, then synchronously suspend
the current element and schedule its teardown (and the preloaded
element's) with `setTimeout`. -/
def stop (e : Engine) : Engine × List Event :=
  let p1 := updatePlaybackState e ⟨some false, some none, some none, some 0, some 0⟩
  let e1 : Engine := { p1.1 with currentAlbum := none, currentTrackIndex := 0 }
  let curEvs : List Event :=
    match e1.currentAudioIdx with
    | some _ => [Event.pauseActive, Event.asyncCleanup 100, Event.asyncCleanup 1000]
    | none => []
  let e2 : Engine := { e1 with currentAudioIdx := none }
  let nextEvs : List Event :=
    match e2.nextAudioIdx with
    | some _ => [Event.asyncCleanup 1000]
    | none => []
  let e3 : Engine := { e2 with nextAudioIdx := none }
  (e3, p1.2 ++ curEvs ++ nextEvs)

/-- Whether an effect is a listener notification. -/
def isPublishEv : Event → Bool
  | Event.publish _ => true
  | _ => false

/-- The sequence of snapshots a trace delivers to listeners. -/
def publishedStates (tr : List Event) : List PlaybackState :=
  tr.filterMap fun ev =>
    match ev with
    | Event.publish st => some st
    | _ => none

/-- The track indices for which the trace invokes the Source Loader. -/
def loadedIndices (tr : List Event) : List Nat :=
  tr.filterMap fun ev =>
    match ev with
    | Event.load i => some i
    | _ => none

/-- The track indices on which the trace attempts `play()`. -/
def attemptedIndices (tr : List Event) : List Nat :=
  tr.filterMap fun ev =>
    match ev with
    | Event.playAttempt i => some i
    | _ => none

/-!
Object-identity model of the State Broadcaster slice of the service:
the listener registry (`listeners`, line 17), `addStateListener`
(lines 31-35), `removeStateListener` (lines 37-42), `notifyStateChange`
(lines 44-46) and the merge step of `updatePlaybackState` (line 49).
Every `PlaybackState` object lives in a heap cell (an index into `heap`);
`stateRef` is the cell the engine's `this.playbackState` field points at,
and `delivered` records, in order, which listener received which cell.
JavaScript object spread `{ ...x }` allocates a fresh cell; passing a
variable passes the cell itself.  A listener mutating the object it was
handed is `mutateCell` on the cell it received.
-/

/-- Listener registry and snapshot heap of the service. -/
structure Broadcaster where
  heap : List PlaybackState
  stateRef : Nat
  listeners : List Nat
  delivered : List (Nat × Nat)
deriving DecidableEq

/-- The value currently held in `this.playbackState`. -/
def heldState (b : Broadcaster) : PlaybackState :=
  b.heap.getD b.stateRef clearedPlaybackState

/-- A fresh service's broadcaster: one heap cell holding the cleared
state, no listeners, nothing delivered yet. -/
def initialBroadcaster : Broadcaster :=
  ⟨[clearedPlaybackState], 0, [], []⟩

/-- `addStateListener` (lines 31-35): append the listener, then
immediately call it with `this.playbackState` — the engine's own cell,
not a copy. -/
def addStateListener (b : Broadcaster) (l : Nat) : Broadcaster :=
  { b with listeners := b.listeners ++ [l]
           delivered := b.delivered ++ [(l, b.stateRef)] }

/-- `removeStateListener` (lines 37-42): `indexOf` then `splice` of the
first occurrence; JavaScript `indexOf` yields `-1` (here: the length) when
the listener is absent, and the `index > -1` guard then skips the splice. -/
def removeStateListener (b : Broadcaster) (l : Nat) : Broadcaster :=
  let i := b.listeners.indexOf l
  if i < b.listeners.length then { b with listeners := b.listeners.eraseIdx i }
  else b

/-- One `forEach` pass of `notifyStateChange` (line 45): each listener, in
registration order, receives `{ ...this.playbackState }` — a freshly
allocated copy per listener. -/
def notifyLoop (ls : List Nat) (b : Broadcaster) : Broadcaster :=
  match ls with
  | [] => b
  | l :: rest =>
    notifyLoop rest
      { b with heap := b.heap ++ [heldState b]
               delivered := b.delivered ++ [(l, b.heap.length)] }

/-- `notifyStateChange` (lines 44-46). -/
def notifyStateChange (b : Broadcaster) : Broadcaster :=
  notifyLoop b.listeners b

/-- `updatePlaybackState` (lines 48-51) seen by the broadcaster model:
`{ ...this.playbackState, ...updates }` allocates a fresh cell holding
the merge, `this.playbackState` is repointed at it, then all listeners
are notified. -/
def bUpdatePlaybackState (b : Broadcaster) (u : StateUpdate) : Broadcaster :=
  let merged := applyUpdate (heldState b) u
  notifyStateChange { b with heap := b.heap ++ [merged], stateRef := b.heap.length }

/-- An observer mutating, in place, an object it was handed: overwrite
heap cell `i`. -/
def mutateCell (b : Broadcaster) (i : Nat) (v : PlaybackState) : Broadcaster :=
  { b with heap := b.heap.set i v }

/-- The deliveries one `notifyStateChange` pass makes when the fresh
copies are allocated starting at cell `base`: the listeners in
registration order, paired with consecutive fresh cells. -/
def expectedDeliveries (ls : List Nat) (base : Nat) : List (Nat × Nat) :=
  match ls with
  | [] => []
  | l :: rest => (l, base) :: expectedDeliveries rest (base + 1)

/-- How many of the recorded deliveries went to listener `l`. -/
def deliveriesTo (l : Nat) (ds : List (Nat × Nat)) : Nat :=
  ds.countP (fun p => p.1 == l)

/-!
Concrete fixtures: a three-track album, play-outcome environments, and
the engine states the witnesses and counterexamples evaluate at.
-/

/-- First track of the concrete test album. -/
def t0 : Track := ⟨"t0", "Track 0", "A", "LP", 1, 100, "p0", "r0"⟩

/-- Second track of the concrete test album. -/
def t1 : Track := ⟨"t1", "Track 1", "A", "LP", 2, 110, "p1", "r1"⟩

/-- Third track of the concrete test album. -/
def t2 : Track := ⟨"t2", "Track 2", "A", "LP", 3, 120, "p2", "r2"⟩

/-- A three-track album. -/
def album3 : Album := ⟨"al3", "LP", "A", none, [t0, t1, t2], none⟩

/-- A two-track album. -/
def album2 : Album := ⟨"al2", "EP", "A", none, [t0, t1], none⟩

/-- An album with no tracks. -/
def albumEmpty : Album := ⟨"al0", "Empty", "A", none, [], none⟩

/-- Environment in which every `play()` attempt succeeds. -/
def envAll : Nat → PlayResult := fun _ => PlayResult.ok

/-- Environment in which starting track index 1 always fails (a
non-abort playback error) and every other track plays fine. -/
def envC4 : Nat → PlayResult :=
  fun i => if i = 1 then PlayResult.err false else PlayResult.ok

/-- Scenario of the error-skip property: start the three-track album at
track 0 under `envC4`.  Step 1: `playAlbum`. -/
def c4Step1 : Engine × List Event := playAlbum envC4 initialEngine album3 0

/-- Step 2: track 0's `canplaythrough` fires, triggering
`preloadNextTrack` (lines 230-237). -/
def c4Step2 : Engine × List Event := preloadNextTrack c4Step1.1

/-- Step 3: track 0's `ended` fires, triggering `handleTrackEnd`: the
preloaded track 1 is promoted, its `play()` fails, the fallback load of
track 1 fails too, and the engine skips to track 2, which plays. -/
def c4Step3 : Engine × List Event := handleTrackEnd envC4 c4Step2.1

/-- Step 4: track 2's `canplaythrough` fires; `preloadNextTrack` is a
no-op on the last track. -/
def c4Step4 : Engine × List Event := preloadNextTrack c4Step3.1

/-- Step 5: track 2's `ended` fires; the album is finished. -/
def c4Step5 : Engine × List Event := handleTrackEnd envC4 c4Step4.1

/-- The full effect trace of the error-skip scenario. -/
def c4Trace : List Event :=
  c4Step1.2 ++ c4Step2.2 ++ c4Step3.2 ++ c4Step4.2 ++ c4Step5.2

/-- Mid-playback engine: track 0 of the two-track album is the active
source and playing, track 1 is preloaded. -/
def engineMidPlay : Engine :=
  ⟨some 0, some 1, 0, some album2, ⟨true, some t0, some album2, 50, 100⟩⟩

/-- Engine playing the last track of the three-track album, nothing
preloaded. -/
def engineLastTrack : Engine :=
  ⟨some 2, none, 2, some album3, ⟨true, some t2, some album3, 10, 120⟩⟩

/-- Engine holding a current element that is suspended: nothing is
playing (`isPlaying` is false), but `currentAudio` is non-null. -/
def enginePaused : Engine :=
  ⟨some 0, none, 0, some album3, ⟨false, some t0, some album3, 5, 100⟩⟩

/-- A broadcaster with one registered listener (id 3), used to
instantiate the broadcaster contract. -/
def broadcasterOne : Broadcaster :=
  ⟨[clearedPlaybackState], 0, [3], []⟩

/-- A sample partial update. -/
def updSample : StateUpdate := ⟨some true, none, none, none, none⟩

/-- The value an adversarial observer writes into the snapshot object it
received. -/
def mutatedSt : PlaybackState := ⟨true, none, none, 7, 7⟩

/-!
Helper lemmas about the engine operations.
-/

/-- `playCurrentTrackGo` never changes which album is loaded. -/
lemma playGo_album (env : Nat → PlayResult) (fuel : Nat) (e : Engine) :
    (playCurrentTrackGo env fuel e).1.currentAlbum = e.currentAlbum := by
  induction fuel generalizing e with
  | zero => rfl
  | succ n ih =>
    unfold playCurrentTrackGo
    split
    · rfl
    · rename_i album hA
      split
      · repeat' split
        all_goals simp_all [updatePlaybackState, ih]
      · simp [hA]

/-- `playCurrentTrackGo` keeps the cursor strictly inside the album: the
error-skip recursion only ever advances when it is not on the last
track. -/
lemma playGo_idx_lt (env : Nat → PlayResult) (fuel : Nat) (e : Engine) (album : Album)
    (hA : e.currentAlbum = some album)
    (hlt : e.currentTrackIndex < album.tracks.length) :
    (playCurrentTrackGo env fuel e).1.currentTrackIndex < album.tracks.length := by
  induction fuel generalizing e with
  | zero => simpa using hlt
  | succ n ih =>
    unfold playCurrentTrackGo
    rw [hA]
    simp only [hlt, dif_pos]
    split
    · simp_all [updatePlaybackState]
    · rename_i ab henv
      split
      · rename_i hsk
        split
        · simp_all [updatePlaybackState]
        · simp only [updatePlaybackState]
          refine ih _ ?_ ?_
          · simp [hA]
          · simp
            omega
      · simp_all [updatePlaybackState]

/-- `playCurrentTrack` never changes which album is loaded. -/
lemma playCT_album (env : Nat → PlayResult) (e : Engine) :
    (playCurrentTrack env e).1.currentAlbum = e.currentAlbum := by
  unfold playCurrentTrack
  exact playGo_album env (playMeasure e) e

/-- `playCurrentTrack` keeps an in-range cursor in range. -/
lemma playCT_idx_lt (env : Nat → PlayResult) (e : Engine) (album : Album)
    (hA : e.currentAlbum = some album)
    (hlt : e.currentTrackIndex < album.tracks.length) :
    (playCurrentTrack env e).1.currentTrackIndex < album.tracks.length := by
  unfold playCurrentTrack
  exact playGo_idx_lt env (playMeasure e) e album hA hlt

/-- `preloadNextTrack` touches only the preload slot: the current
element, the cursor and the album are untouched. -/
lemma preload_fields (e : Engine) :
    (preloadNextTrack e).1.currentAudioIdx = e.currentAudioIdx
    ∧ (preloadNextTrack e).1.currentTrackIndex = e.currentTrackIndex
    ∧ (preloadNextTrack e).1.currentAlbum = e.currentAlbum := by
  unfold preloadNextTrack
  split
  · exact ⟨rfl, rfl, rfl⟩
  · split
    · exact ⟨rfl, rfl, rfl⟩
    · exact ⟨rfl, rfl, rfl⟩

/-- `stop` always leaves the engine in the fully cleared shape. -/
lemma stop_engine (e : Engine) :
    (stop e).1 = ⟨none, none, 0, none, clearedPlaybackState⟩ := by
  unfold stop
  simp [updatePlaybackState, applyUpdate, clearedPlaybackState]

/-!
The claims.
-/

/-- C1: for every album with at least 2 tracks, when the current track
ends naturally and a prefetched pending source for the next index exists
(and its promoted `play()` succeeds, the claim's "starts it"),
`handleTrackEnd` promotes that pending source to be the active source and
starts it without invoking the Source Loader for that next track at
transition time: no `load` effect for the new index appears in the
transition's trace, while a `play` attempt on it does. -/
theorem C1_gapless_promotion (env : Nat → PlayResult) (e : Engine) (album : Album) (j : Nat)
    (hA : e.currentAlbum = some album) (hN : e.nextAudioIdx = some j)
    (hlt : e.currentTrackIndex + 1 < album.tracks.length)
    (henv : env (e.currentTrackIndex + 1) = PlayResult.ok) :
    (handleTrackEnd env e).1.currentAudioIdx = some j
    ∧ Event.load (e.currentTrackIndex + 1) ∉ (handleTrackEnd env e).2
    ∧ Event.playAttempt (e.currentTrackIndex + 1) ∈ (handleTrackEnd env e).2 := by
  unfold handleTrackEnd
  rw [hA]
  simp only [hlt, dif_pos, hN, henv, updatePlaybackState]
  refine ⟨?_, ?_, ?_⟩
  · rw [(preload_fields _).1]
  · unfold preloadNextTrack
    repeat' split
    any_goals simp_all
  · repeat' split
    all_goals simp

/-- Witness for C1 at a concrete mid-playback engine: track 0 of the
two-track album is active and track 1 is preloaded. -/
theorem C1_gapless_promotion_witness :
    (handleTrackEnd envAll engineMidPlay).1.currentAudioIdx = some 1
    ∧ Event.load (engineMidPlay.currentTrackIndex + 1) ∉ (handleTrackEnd envAll engineMidPlay).2
    ∧ Event.playAttempt (engineMidPlay.currentTrackIndex + 1) ∈ (handleTrackEnd envAll engineMidPlay).2 :=
  C1_gapless_promotion envAll engineMidPlay album2 1 rfl rfl (by decide) rfl

/-- C2 counterexample: when the last track of the three-track album ends
naturally, the single state published still carries the last track and
the album — `currentTrack`/`currentAlbum` are not cleared to null, which
falsifies the claim's "currentTrack and currentAlbum cleared (null)". -/
theorem C2_counterexample :
    publishedStates (handleTrackEnd envAll engineLastTrack).2
      = [⟨false, some t2, some album3, 0, 120⟩]
    ∧ (⟨false, some t2, some album3, 0, 120⟩ : PlaybackState).currentTrack ≠ none
    ∧ (⟨false, some t2, some album3, 0, 120⟩ : PlaybackState).currentAlbum ≠ none
    ∧ (handleTrackEnd envAll engineLastTrack).1.currentAlbum ≠ none := by
  decide

/-- C2 (amended): when the last track ends naturally (cursor incremented
past the end), the engine publishes exactly one state with `isPlaying`
false and `position` 0, but `currentTrack` and `currentAlbum` keep their
last values (they are not cleared), and the engine's internal album
reference also stays set; no further track starts until a new
`playAlbum`. -/
theorem C2_album_finished_amended (env : Nat → PlayResult) (e : Engine) (album : Album)
    (hA : e.currentAlbum = some album)
    (hend : album.tracks.length ≤ e.currentTrackIndex + 1) :
    handleTrackEnd env e =
      ({ e with currentTrackIndex := e.currentTrackIndex + 1
                playbackState := { e.playbackState with isPlaying := false, position := 0 } },
       [Event.publish { e.playbackState with isPlaying := false, position := 0 }]) := by
  have hlt : ¬ (e.currentTrackIndex + 1 < album.tracks.length) := by omega
  unfold handleTrackEnd
  rw [hA]
  simp [hlt, updatePlaybackState, applyUpdate]

/-- Witness for the amended C2 at the concrete last-track engine. -/
theorem C2_album_finished_amended_witness :
    handleTrackEnd envAll engineLastTrack =
      ({ engineLastTrack with
           currentTrackIndex := engineLastTrack.currentTrackIndex + 1
           playbackState :=
             { engineLastTrack.playbackState with isPlaying := false, position := 0 } },
       [Event.publish
          { engineLastTrack.playbackState with isPlaying := false, position := 0 }]) :=
  C2_album_finished_amended envAll engineLastTrack album3 rfl (by decide)

/-- C3: for every engine state, `stop()` publishes the fully-cleared
state as its very first effect, no further publication follows, and every
teardown effect (synchronous suspend and the `setTimeout`-scheduled
cleanups) comes strictly after it in the trace; the engine's held state is
the cleared one. -/
theorem C3_stop_publishes_first (e : Engine) :
    (stop e).2.head? = some (Event.publish clearedPlaybackState)
    ∧ ((stop e).2.drop 1).all (fun ev => !(isPublishEv ev)) = true
    ∧ (stop e).1.playbackState = clearedPlaybackState := by
  unfold stop
  rcases hc : e.currentAudioIdx with _ | k <;>
    rcases hn : e.nextAudioIdx with _ | m <;>
    simp [hc, hn, updatePlaybackState, applyUpdate, clearedPlaybackState, isPublishEv]

/-- C4 counterexample: in the three-track scenario where starting track
index 1 always fails, states carrying track 1 as `currentTrack` are
published (the engine publishes the intended track before each `play()`
attempt), refuting "track 1's title/artist never appear in any published
state". -/
theorem C4_counterexample :
    ¬ (∀ st ∈ publishedStates c4Trace, st.currentTrack ≠ some t1) := by
  decide

/-- C4 (amended): in the same scenario the playback *sequence* is as the
claim states — track 0 plays, track 1 is attempted (twice: the promoted
preload and the cold fallback) and fails, the engine skips to track 2,
track 2 plays, and the run ends stopped (last publication has `isPlaying`
false and `position` 0, cursor past the end) — but states naming track 1
are published transiently while the engine attempts it. -/
theorem C4_error_skip_amended :
    attemptedIndices c4Trace = [0, 1, 1, 2]
    ∧ loadedIndices c4Trace = [0, 1, 1, 2]
    ∧ (publishedStates c4Trace).getLast? = some ⟨false, some t2, some album3, 0, 120⟩
    ∧ c4Step5.1.currentTrackIndex = 3
    ∧ (∃ st ∈ publishedStates c4Trace, st.currentTrack = some t1) := by
  refine ⟨by decide, by decide, by decide, by decide, ?_⟩
  refine ⟨⟨true, some t1, some album3, 0, 110⟩, by decide, by decide⟩

/-- C5 counterexample: `playAlbum` performs no range check on
`startIndex`; starting the three-track album at index 5 leaves the album
set with an out-of-range cursor, refuting the claimed invariant
`0 ≤ currentTrackIndex < len(tracks)` after every public operation. -/
theorem C5_counterexample :
    (playAlbum envAll initialEngine album3 5).1.currentAlbum = some album3
    ∧ ¬ ((playAlbum envAll initialEngine album3 5).1.currentTrackIndex
          < album3.tracks.length) := by
  decide

/-- C5 (amended): the strict invariant does hold after `playAlbum` with
an in-range `startIndex` (the error-skip recursion never pushes the
cursor out of range), and every `handleTrackEnd` from an in-range state
keeps the album set and the cursor at most `len(tracks)` — the upper
bound is reached exactly at album exhaustion, where the album reference
stays set, so the strict bound of the claim fails there and for an
out-of-range `startIndex` (which the code never validates). -/
theorem C5_invariant_amended :
    (∀ (env : Nat → PlayResult) (e : Engine) (album : Album) (startIdx : Nat),
       startIdx < album.tracks.length →
       ((playAlbum env e album startIdx).1.currentAlbum = some album
        ∧ (playAlbum env e album startIdx).1.currentTrackIndex < album.tracks.length))
    ∧ (∀ (env : Nat → PlayResult) (e : Engine) (album : Album),
       e.currentAlbum = some album →
       e.currentTrackIndex < album.tracks.length →
       ((handleTrackEnd env e).1.currentAlbum = some album
        ∧ (handleTrackEnd env e).1.currentTrackIndex ≤ album.tracks.length)) := by
  constructor
  · intro env e album startIdx hs
    have hne : ¬ (album.tracks.length = 0) := by omega
    unfold playAlbum
    rw [if_neg hne]
    constructor
    · rw [playCT_album]
      simp [updatePlaybackState]
    · refine playCT_idx_lt env _ album ?_ ?_
      · simp [updatePlaybackState]
      · simpa [updatePlaybackState] using hs
  · intro env e album hA hpre
    unfold handleTrackEnd
    rw [hA]
    by_cases hlt : e.currentTrackIndex + 1 < album.tracks.length
    · simp only [hlt, dif_pos]
      rcases hN : e.nextAudioIdx with _ | j
      · constructor
        · rw [playCT_album]
        · exact le_of_lt (playCT_idx_lt env _ album rfl (by simpa using hlt))
      · rcases henv : env (e.currentTrackIndex + 1) with _ | ab
        · simp only [updatePlaybackState]
          constructor
          · rw [(preload_fields _).2.2]
          · rw [(preload_fields _).2.1]
            simp
            omega
        · simp only [updatePlaybackState]
          constructor
          · rw [playCT_album]
          · refine le_of_lt (playCT_idx_lt env _ album rfl ?_)
            simpa using hlt
    · simp only [hlt, dif_neg, updatePlaybackState]
      exact ⟨rfl, by simp; omega⟩

/-- Witness for the amended C5: a valid `playAlbum` start and a concrete
mid-playback track end. -/
theorem C5_invariant_amended_witness :
    ((playAlbum envAll initialEngine album3 1).1.currentAlbum = some album3
     ∧ (playAlbum envAll initialEngine album3 1).1.currentTrackIndex < album3.tracks.length)
    ∧ ((handleTrackEnd envAll engineMidPlay).1.currentAlbum = some album2
       ∧ (handleTrackEnd envAll engineMidPlay).1.currentTrackIndex ≤ album2.tracks.length) :=
  ⟨C5_invariant_amended.1 envAll initialEngine album3 1 (by decide),
   C5_invariant_amended.2 envAll engineMidPlay album2 rfl (by decide)⟩

/-- C6: `playAlbum` on an album whose track list is empty is a complete
no-op: the engine is unchanged and the trace is empty — no publication,
no Source-Loader invocation. -/
theorem C6_empty_album_noop (env : Nat → PlayResult) (e : Engine) (album : Album)
    (startIdx : Nat) (h : album.tracks = []) :
    playAlbum env e album startIdx = (e, []) := by
  unfold playAlbum
  rw [if_pos (by simp [h])]

/-- Witness for C6 at the concrete empty album. -/
theorem C6_empty_album_noop_witness :
    playAlbum envAll initialEngine albumEmpty 0 = (initialEngine, []) :=
  C6_empty_album_noop envAll initialEngine albumEmpty 0 rfl

/-- C8 counterexample: with a suspended current element nothing is
playing (`isPlaying` is false), yet `pause()` is not a no-op — it
publishes a notification — refuting "pause() is a no-op when nothing is
playing". -/
theorem C8_counterexample :
    enginePaused.playbackState.isPlaying = false
    ∧ (pause enginePaused).2 ≠ []
    ∧ (publishedStates (pause enginePaused).2).length = 1 := by
  decide

/-- C8 (amended): `pause()` is a no-op exactly when there is no current
audio element; whenever one exists — playing or already suspended — it
suspends it and publishes a state with `isPlaying` false, leaving
`currentTrack`, `currentAlbum`, `position` and `duration` unchanged. -/
theorem C8_pause_amended (e : Engine) :
    (e.currentAudioIdx = none → pause e = (e, []))
    ∧ (∀ j, e.currentAudioIdx = some j →
        pause e =
          ({ e with playbackState := { e.playbackState with isPlaying := false } },
           [Event.pauseActive,
            Event.publish { e.playbackState with isPlaying := false }])) := by
  constructor
  · intro h
    unfold pause
    rw [h]
  · intro j h
    unfold pause
    rw [h]
    simp [updatePlaybackState, applyUpdate, h]

/-- Witness for the amended C8: the idle engine and the suspended
engine. -/
theorem C8_pause_amended_witness :
    pause initialEngine = (initialEngine, [])
    ∧ pause enginePaused =
        ({ enginePaused with
             playbackState := { enginePaused.playbackState with isPlaying := false } },
         [Event.pauseActive,
          Event.publish { enginePaused.playbackState with isPlaying := false }]) :=
  ⟨(C8_pause_amended initialEngine).1 rfl,
   (C8_pause_amended enginePaused).2 0 rfl⟩

/-- C9: `stop()` is idempotent and safe from any state, including Idle:
each call publishes exactly the fully-cleared state, and a second call
leaves the engine exactly where the first one left it. -/
theorem C9_stop_idempotent (e : Engine) :
    publishedStates (stop e).2 = [clearedPlaybackState]
    ∧ (stop ((stop e).1)).1 = (stop e).1
    ∧ publishedStates (stop ((stop e).1)).2 = [clearedPlaybackState] := by
  refine ⟨?_, ?_, ?_⟩
  · unfold stop
    rcases hc : e.currentAudioIdx with _ | k <;>
      rcases hn : e.nextAudioIdx with _ | m <;>
      simp [hc, hn, publishedStates, updatePlaybackState, applyUpdate, clearedPlaybackState]
  · rw [stop_engine e, stop_engine]
  · rw [stop_engine e]
    decide

/-!
Broadcaster lemmas and the listener-registry claims.
-/

/-- `getD` at the length of the prefix of a one-element append. -/
lemma getD_snoc (xs : List PlaybackState) (a d : PlaybackState) :
    (xs ++ [a]).getD xs.length d = a := by
  rw [List.getD_append_right _ _ _ _ (le_refl _)]
  simp

/-- `getD` inside a replicate block. -/
lemma replicate_getD (n : Nat) (v d : PlaybackState) (k : Nat) (hk : k < n) :
    (List.replicate n v).getD k d = v := by
  rw [List.getD_eq_getElem _ _ (by simpa using hk)]
  exact List.getElem_replicate _ _

/-- Closed form of the `forEach` notification pass: for a well-formed
broadcaster it appends one fresh copy of the held state per listener and
records the deliveries in registration order with consecutive fresh
cells. -/
lemma notifyLoop_spec (ls : List Nat) (b : Broadcaster) (h : b.stateRef < b.heap.length) :
    notifyLoop ls b =
      { b with heap := b.heap ++ List.replicate ls.length (heldState b)
               delivered := b.delivered ++ expectedDeliveries ls b.heap.length } := by
  induction ls generalizing b with
  | nil => simp [notifyLoop, expectedDeliveries]
  | cons l rest ih =>
    unfold notifyLoop
    have hHeld : heldState { b with heap := b.heap ++ [heldState b]
                                    delivered := b.delivered ++ [(l, b.heap.length)] }
        = heldState b := by
      simp only [heldState]
      exact List.getD_append _ _ _ _ h
    rw [ih _ (by simp; omega)]
    simp only [hHeld, expectedDeliveries, List.replicate_succ, List.length_cons,
      List.length_append]
    simp [List.append_assoc]

/-- Closed form of a publish: one fresh cell for the merged state (the
new `this.playbackState`), then one fresh copy per listener. -/
lemma bUpdate_spec (b : Broadcaster) (u : StateUpdate) :
    bUpdatePlaybackState b u =
      { heap := (b.heap ++ [applyUpdate (heldState b) u])
                  ++ List.replicate b.listeners.length (applyUpdate (heldState b) u)
        stateRef := b.heap.length
        listeners := b.listeners
        delivered := b.delivered ++ expectedDeliveries b.listeners (b.heap.length + 1) } := by
  unfold bUpdatePlaybackState notifyStateChange
  rw [notifyLoop_spec _ _ (by simp)]
  have hHeld : heldState { b with heap := b.heap ++ [applyUpdate (heldState b) u]
                                  stateRef := b.heap.length }
      = applyUpdate (heldState b) u := by
    simp only [heldState]
    exact getD_snoc _ _ _
  simp [hHeld]

/-- Cell references produced by one notification pass lie in
`[base, base + ls.length)`. -/
lemma expectedDeliveries_mem (ls : List Nat) (base : Nat) (p : Nat × Nat)
    (hp : p ∈ expectedDeliveries ls base) : base ≤ p.2 ∧ p.2 < base + ls.length := by
  induction ls generalizing base with
  | nil => simp [expectedDeliveries] at hp
  | cons x rest ih =>
    rw [expectedDeliveries] at hp
    rcases List.mem_cons.mp hp with hp | hp
    · subst hp
      simp
    · have h2 := ih (base + 1) hp
      simp only [List.length_cons]
      omega

/-- The listeners notified by one pass, in order. -/
lemma expectedDeliveries_fst (ls : List Nat) (base : Nat) :
    (expectedDeliveries ls base).map Prod.fst = ls := by
  induction ls generalizing base with
  | nil => rfl
  | cons x rest ih => simp [expectedDeliveries, ih]

/-- Distinct listeners of one pass receive distinct cells. -/
lemma expectedDeliveries_pairwise (ls : List Nat) (base : Nat) :
    (expectedDeliveries ls base).Pairwise (fun p q => p.2 ≠ q.2) := by
  induction ls generalizing base with
  | nil => exact List.Pairwise.nil
  | cons x rest ih =>
    refine List.Pairwise.cons ?_ (ih (base + 1))
    intro q hq
    have := expectedDeliveries_mem rest (base + 1) q hq
    simp
    omega

/-- `splice` at `indexOf` is erasure of the first occurrence. -/
lemma eraseIdx_indexOf (xs : List Nat) (l : Nat) :
    xs.eraseIdx (xs.indexOf l) = xs.erase l := by
  induction xs with
  | nil => rfl
  | cons x rest ih =>
    by_cases hx : x = l
    · subst hx
      rw [List.indexOf_cons_eq _ rfl, List.eraseIdx_cons_zero, List.erase_cons_head]
    · rw [List.indexOf_cons_ne _ hx, List.eraseIdx_cons_succ,
        List.erase_cons_tail (by simp [hx]), ih]

/-- `removeStateListener` removes exactly the first registered occurrence
and leaves everything else untouched. -/
lemma removeListener_eq_erase (b : Broadcaster) (l : Nat) :
    removeStateListener b l = { b with listeners := b.listeners.erase l } := by
  unfold removeStateListener
  by_cases hmem : l ∈ b.listeners
  · rw [if_pos (List.indexOf_lt_length.mpr hmem), eraseIdx_indexOf]
  · rw [if_neg (by rw [List.indexOf_eq_length.mpr hmem]; omega)]
    rw [List.erase_of_not_mem hmem]

/-- Each listener is notified once per registered occurrence. -/
lemma deliveriesTo_expected (l : Nat) (ls : List Nat) (base : Nat) :
    deliveriesTo l (expectedDeliveries ls base) = ls.count l := by
  induction ls generalizing base with
  | nil => rfl
  | cons x rest ih =>
    simp [deliveriesTo, expectedDeliveries, List.countP_cons, List.count_cons]
    exact ih (base + 1)

/-- C7 counterexample: `addStateListener` hands the new observer the
engine's own `this.playbackState` object, not a copy — the recorded
delivery is the engine's live cell, and an observer mutating the object
it received at subscription time changes the engine's held state,
refuting "every snapshot handed to an observer (including the one
delivered at subscription) is an immutable copy". -/
theorem C7_counterexample :
    (addStateListener initialBroadcaster 7).delivered = [(7, initialBroadcaster.stateRef)]
    ∧ heldState (mutateCell (addStateListener initialBroadcaster 7)
          initialBroadcaster.stateRef mutatedSt)
        ≠ heldState (addStateListener initialBroadcaster 7) := by
  decide

/-- C7 (amended): subscription synchronously delivers the current
snapshot — but by reference to the engine's own state object, not as a
copy — and every publish notifies all listeners synchronously in
subscription order, each with its own freshly allocated copy of the
merged state, distinct from the engine's new held cell and pairwise
distinct, so publish-time snapshots are safe to mutate while the
subscription-time snapshot is not (until the next publish rebuilds the
held object). -/
theorem C7_broadcaster_amended (b : Broadcaster) (l : Nat) (u : StateUpdate) :
    ((addStateListener b l).listeners = b.listeners ++ [l]
     ∧ (addStateListener b l).delivered = b.delivered ++ [(l, b.stateRef)])
    ∧ ((bUpdatePlaybackState b u).delivered
         = b.delivered ++ expectedDeliveries b.listeners (b.heap.length + 1)
       ∧ (expectedDeliveries b.listeners (b.heap.length + 1)).map Prod.fst = b.listeners
       ∧ (∀ p ∈ expectedDeliveries b.listeners (b.heap.length + 1),
            (bUpdatePlaybackState b u).heap.getD p.2 clearedPlaybackState
              = applyUpdate (heldState b) u
            ∧ p.2 ≠ (bUpdatePlaybackState b u).stateRef)
       ∧ (expectedDeliveries b.listeners (b.heap.length + 1)).Pairwise
           (fun p q => p.2 ≠ q.2)) := by
  refine ⟨⟨rfl, rfl⟩, ?_, expectedDeliveries_fst _ _, ?_, expectedDeliveries_pairwise _ _⟩
  · rw [bUpdate_spec]
  · intro p hp
    obtain ⟨hb1, hb2⟩ := expectedDeliveries_mem _ _ p hp
    rw [bUpdate_spec]
    constructor
    · have hlen : (b.heap ++ [applyUpdate (heldState b) u]).length = b.heap.length + 1 := by
        simp
      rw [List.getD_append_right _ _ _ _ (by rw [hlen]; omega)]
      rw [hlen]
      refine replicate_getD _ _ _ _ ?_
      omega
    · show p.2 ≠ b.heap.length
      omega

/-- Witness for the amended C7 at a one-listener broadcaster. -/
theorem C7_broadcaster_amended_witness :
    (addStateListener broadcasterOne 7).delivered
      = broadcasterOne.delivered ++ [(7, broadcasterOne.stateRef)]
    ∧ ((bUpdatePlaybackState broadcasterOne updSample).heap.getD 2 clearedPlaybackState
         = applyUpdate (heldState broadcasterOne) updSample
       ∧ (2 : Nat) ≠ (bUpdatePlaybackState broadcasterOne updSample).stateRef) :=
  ⟨(C7_broadcaster_amended broadcasterOne 7 updSample).1.2,
   (C7_broadcaster_amended broadcasterOne 7 updSample).2.2.2.1 (3, 2) (by decide)⟩

/-- C10: the registry permits duplicates — registering the same listener
twice makes every publish notify it twice (two more deliveries than
before); one `removeStateListener` removes only the first registered
occurrence, leaving it subscribed once; removing a never-subscribed
listener changes nothing. -/
theorem C10_duplicate_listeners (b : Broadcaster) (l : Nat)
    (hwf : b.stateRef < b.heap.length) (hl : l ∉ b.listeners) :
    (addStateListener (addStateListener b l) l).listeners = b.listeners ++ [l, l]
    ∧ deliveriesTo l (notifyStateChange (addStateListener (addStateListener b l) l)).delivered
        = deliveriesTo l (addStateListener (addStateListener b l) l).delivered + 2
    ∧ (removeStateListener (addStateListener (addStateListener b l) l) l).listeners.count l = 1
    ∧ removeStateListener b l = b := by
  have hcount : (b.listeners ++ [l, l]).count l = 2 := by
    rw [List.count_append, List.count_eq_zero.mpr hl]
    simp
  refine ⟨?_, ?_, ?_, ?_⟩
  · simp [addStateListener]
  · unfold notifyStateChange
    rw [notifyLoop_spec _ _ (by simpa [addStateListener] using hwf)]
    simp only [deliveriesTo, List.countP_append]
    have : deliveriesTo l (expectedDeliveries (addStateListener (addStateListener b l) l).listeners
        (addStateListener (addStateListener b l) l).heap.length)
        = ((b.listeners ++ [l, l]).count l) := by
      rw [show (addStateListener (addStateListener b l) l).listeners = b.listeners ++ [l, l] by
        simp [addStateListener]]
      exact deliveriesTo_expected _ _ _
    simp only [deliveriesTo] at this
    rw [this, hcount]
  · rw [removeListener_eq_erase]
    simp only []
    rw [show (addStateListener (addStateListener b l) l).listeners = b.listeners ++ [l, l] by
      simp [addStateListener]]
    rw [List.count_erase_self, hcount]
  · rw [removeListener_eq_erase, List.erase_of_not_mem hl]

/-- Witness for C10 on a fresh broadcaster and listener id 9. -/
theorem C10_duplicate_listeners_witness :
    (addStateListener (addStateListener initialBroadcaster 9) 9).listeners
      = initialBroadcaster.listeners ++ [9, 9]
    ∧ deliveriesTo 9 (notifyStateChange
          (addStateListener (addStateListener initialBroadcaster 9) 9)).delivered
        = deliveriesTo 9
            (addStateListener (addStateListener initialBroadcaster 9) 9).delivered + 2
    ∧ (removeStateListener
          (addStateListener (addStateListener initialBroadcaster 9) 9) 9).listeners.count 9 = 1
    ∧ removeStateListener initialBroadcaster 9 = initialBroadcaster :=
  C10_duplicate_listeners initialBroadcaster 9 (by decide) (by decide)

end LP
